import Mathlib

/-!
Shallow embedding of `seo.go` from traefik-free/sitemap: a Traefik middleware
that records successfully served request URLs, serves a generated sitemap.xml
and robots.txt, and optionally injects Google Tag Manager snippets into HTML
response bodies (decompressing and recompressing gzip-encoded bodies).

Bodies, paths and URLs are modelled as Lean `String`s (Go byte strings);
character-level work happens on `List Char`.  The Go regexp engine and the
gzip codec are external libraries, so compiled ignore patterns are modelled
as abstract predicates `String → Bool` and the codec as a pair of partial
functions supplied as a parameter.
-/

namespace Seo

/-- Models Go `strings.HasPrefix s pre` (byte-wise prefix test). -/
def strStartsWith (s pre : String) : Bool := pre.data.isPrefixOf s.data

/-- Models Go `strings.HasSuffix s suf` (byte-wise suffix test). -/
def strEndsWith (s suf : String) : Bool := suf.data.isSuffixOf s.data

/-- Models Go `strings.TrimSuffix s suf`: drops one trailing copy of `suf`
when present, otherwise returns `s` unchanged (`seo.go` line 189 uses it with
`suf = "/"`). -/
def trimSuffix (s suf : String) : String :=
  if strEndsWith s suf then ⟨s.data.take (s.data.length - suf.data.length)⟩ else s

theorem strData_append (a b : String) : (a ++ b).data = a.data ++ b.data := by
  cases a; cases b; rfl

/-- Models Go `strings.ToLower` on the ASCII data handled here. -/
def toLowerStr (s : String) : String := ⟨s.data.map Char.toLower⟩

/-- Models Go `strings.EqualFold` on the ASCII inputs used by the middleware
(`Content-Encoding` versus `"gzip"`). -/
def eqFold (a b : String) : Bool := toLowerStr a == toLowerStr b

/-! ## The capturing response writer (`modifyingWriter`, seo.go lines 70-85)

The downstream handler interacts with the wrapper through a sequence of
`Write` and `WriteHeader` calls; the wrapper's `status` field starts at 0. -/

/-- One call the downstream handler makes on the capturing writer. -/
inductive WriterOp where
  | write (s : String)
  | writeHeader (code : Nat)
deriving DecidableEq

/-- Effect of one writer call on the `status` field: `Write` latches 200 when
the status is still unset (line 77-79); `WriteHeader` overwrites it
unconditionally (line 84). -/
def mwStep (st : Nat) : WriterOp → Nat
  | .write _ => if st = 0 then 200 else st
  | .writeHeader c => c

/-- The `status` field after the downstream handler returns. -/
def mwStatusRaw (ops : List WriterOp) : Nat := ops.foldl mwStep 0

/-- The status ServeHTTP then uses: line 197-199 defaults 0 to 200. -/
def mwFinalStatus (ops : List WriterOp) : Nat :=
  if mwStatusRaw ops = 0 then 200 else mwStatusRaw ops

/-- All bytes the downstream handler wrote, in order (the buffer `mw.body`). -/
def mwBody (ops : List WriterOp) : String :=
  ops.foldl (fun acc o => match o with | .write s => acc ++ s | .writeHeader _ => acc) ""

/-- The argument of the last `WriteHeader` call of the sequence, if any. -/
def lastWriteHeader : List WriterOp → Option Nat
  | [] => none
  | .write _ :: t => lastWriteHeader t
  | .writeHeader c :: t => some ((lastWriteHeader t).getD c)

/-- Whether the sequence contains a `Write` call. -/
def hasWrite (ops : List WriterOp) : Bool :=
  ops.any (fun o => match o with | .write _ => true | .writeHeader _ => false)

theorem foldl_mwStep_eq (ops : List WriterOp) : ∀ s : Nat,
    (∀ c, WriterOp.writeHeader c ∈ ops → c ≠ 0) →
    ops.foldl mwStep s =
      match lastWriteHeader ops with
      | some c => c
      | none => if s = 0 ∧ hasWrite ops = true then 200 else s := by
  induction ops with
  | nil => intro s _; simp [lastWriteHeader, hasWrite]
  | cons o t ih =>
    intro s hvalid
    have hvt : ∀ c, WriterOp.writeHeader c ∈ t → c ≠ 0 := by
      intro c hc; exact hvalid c (List.mem_cons_of_mem _ hc)
    cases o with
    | write b =>
      have := ih (if s = 0 then 200 else s) hvt
      simp only [List.foldl_cons, mwStep] at *
      rw [this]
      cases hl : lastWriteHeader t with
      | some c => simp [lastWriteHeader, hl]
      | none =>
        simp only [lastWriteHeader, hl, hasWrite, List.any_cons]
        by_cases hs : s = 0
        · subst hs; simp
        · simp [hs]
    | writeHeader c =>
      have hc0 : c ≠ 0 := hvalid c (List.mem_cons_self _ _)
      have := ih c hvt
      simp only [List.foldl_cons, mwStep] at *
      rw [this]
      cases hl : lastWriteHeader t with
      | some d => simp [lastWriteHeader, hl]
      | none => simp [lastWriteHeader, hl, hc0]

theorem lastWriteHeader_mem (ops : List WriterOp) (c : Nat)
    (h : lastWriteHeader ops = some c) : WriterOp.writeHeader c ∈ ops := by
  induction ops with
  | nil => simp [lastWriteHeader] at h
  | cons o t ih =>
    cases o with
    | write b =>
      simp only [lastWriteHeader] at h
      exact List.mem_cons_of_mem _ (ih h)
    | writeHeader d =>
      simp only [lastWriteHeader, Option.some.injEq] at h
      cases hl : lastWriteHeader t with
      | some e =>
        rw [hl] at h; simp at h
        subst h
        exact List.mem_cons_of_mem _ (ih hl)
      | none =>
        rw [hl] at h; simp at h
        subst h
        exact List.mem_cons_self _ _

/-- Claim C10: the status used for the passthrough/rewrite decision and for
recording is the argument of the last `WriteHeader` call the downstream
handler makes on the capturing writer — a later `WriteHeader` overrides an
earlier one, even after body bytes were written — and defaults to 200 when
`WriteHeader` is never called.  (Arguments are valid status codes, i.e.
nonzero; the zero value is the writer's internal "unset" marker.) -/
theorem status_last_writeheader (ops : List WriterOp)
    (h : ∀ c, WriterOp.writeHeader c ∈ ops → c ≠ 0) :
    mwFinalStatus ops = (lastWriteHeader ops).getD 200 := by
  unfold mwFinalStatus mwStatusRaw
  rw [foldl_mwStep_eq ops 0 h]
  cases hl : lastWriteHeader ops with
  | some c =>
    have hc : c ≠ 0 := h c (lastWriteHeader_mem ops c hl)
    simp [hc]
  | none => by_cases hw : hasWrite ops = true <;> simp [hw]

/-- Witness for C10: body bytes written first, then two `WriteHeader` calls;
the final status is the last call's argument, 503. -/
theorem status_last_writeheader_witness :
    mwFinalStatus [WriterOp.write "b", WriterOp.writeHeader 404, WriterOp.writeHeader 503]
      = (lastWriteHeader [WriterOp.write "b", WriterOp.writeHeader 404, WriterOp.writeHeader 503]).getD 200
    ∧ mwFinalStatus [WriterOp.write "b", WriterOp.writeHeader 404, WriterOp.writeHeader 503] = 503 :=
  ⟨status_last_writeheader _ (by intro c hc; simp at hc; omega), by decide⟩

/-! ## Requests, configuration and the middleware state -/

/-- The parts of an incoming `http.Request` that `seo.go` reads. -/
structure Request where
  path : String
  host : String
  xForwardedProto : String
  urlScheme : String
deriving DecidableEq

/-- Scheme resolution, seo.go lines 184-187 (and 284-287, 344-347): the
`X-Forwarded-Proto` header when non-empty, else the request URL's scheme. -/
def effectiveScheme (req : Request) : String :=
  if req.xForwardedProto = "" then req.urlScheme else req.xForwardedProto

/-- The canonical URL recorded for a request, seo.go line 189:
`scheme + "://" + host + strings.TrimSuffix(path, "/")`. -/
def canonicalURL (req : Request) : String :=
  effectiveScheme req ++ "://" ++ req.host ++ trimSuffix req.path "/"

/-- The request's bare origin, seo.go line 288: `scheme + "://" + host`. -/
def baseOf (req : Request) : String := effectiveScheme req ++ "://" ++ req.host

/-- A compiled ignore pattern, abstracted to its matching predicate
(`regexp.Regexp.MatchString`, unanchored substring semantics live inside). -/
abbrev Matcher := String → Bool

/-- The `sitemapGenerator` state (seo.go lines 87-96) minus the opaque
`next`/`name`/`mu` fields; the registry `paths` map is modelled as the list
of its keys in insertion order. -/
structure SG where
  sitemapPath : String
  robotsPath : String
  ignores : List Matcher
  gtmID : String
  paths : List String

/-- The external gzip codec (`compress/gzip`): `decompress` models
`gzip.NewReader` + `io.ReadAll` (`none` on any failure), `compress` models
`gzip.NewWriter` + `Write` + `Close` (`none` when the write errors). -/
structure Codec where
  decompress : String → Option String
  compress : String → Option String

/-- The response headers the downstream handler set, plus its calls on the
capturing writer. -/
structure Downstream where
  ops : List WriterOp
  contentType : String
  contentEncoding : String

/-! ## Robots builder (seo.go lines 343-352) -/

/-- `buildRobotsTxt`: `fmt.Sprintf("User-agent: *\nSitemap: %s\n", sitemapURL)`
with `sitemapURL = scheme + "://" + host + sg.sitemapPath`. -/
def buildRobotsTxt (sg : SG) (req : Request) : String :=
  "User-agent: *\nSitemap: " ++ (effectiveScheme req ++ "://" ++ req.host ++ sg.sitemapPath) ++ "\n"

theorem strAppend_assoc (a b c : String) : a ++ b ++ c = a ++ (b ++ c) := by
  cases a; cases b; cases c
  exact congrArg String.mk (List.append_assoc _ _ _)

/-- Claim C7: for every scheme, host and configured sitemap path the robots
builder returns exactly the two newline-terminated lines `User-agent: *` and
`Sitemap: <scheme>://<host><sitemapPath>`; in particular for host
`example.com`, scheme `https` and sitemap path `/sitemap.xml` it returns
exactly `User-agent: *\nSitemap: https://example.com/sitemap.xml\n`. -/
theorem robots_output (sg : SG) (req : Request) :
    buildRobotsTxt sg req =
      "User-agent: *\n" ++ "Sitemap: " ++ effectiveScheme req ++ "://" ++ req.host
        ++ sg.sitemapPath ++ "\n"
    ∧ buildRobotsTxt ⟨"/sitemap.xml", "/robots.txt", [], "", []⟩
        ⟨"/robots.txt", "example.com", "https", ""⟩
        = "User-agent: *\nSitemap: https://example.com/sitemap.xml\n" := by
  constructor
  · show "User-agent: *\nSitemap: " ++ (effectiveScheme req ++ "://" ++ req.host ++ sg.sitemapPath) ++ "\n" = _
    have h1 : ("User-agent: *\n" : String) ++ "Sitemap: " = "User-agent: *\nSitemap: " := by decide
    rw [← h1]
    simp only [strAppend_assoc]
  · decide

/-! ## Literal substring search and single replacement
(Go `strings.Index` / `strings.Replace(s, old, new, 1)`, seo.go line 230) -/

/-- Index of the first occurrence of `pat` in `l`, as `strings.Index`:
`some 0` for an empty pattern, `none` when `pat` never occurs. -/
def firstIdx (pat : List Char) : List Char → Option Nat
  | [] => if pat = [] then some 0 else none
  | c :: t => if pat.isPrefixOf (c :: t) then some 0 else (firstIdx pat t).map (· + 1)

/-- `strings.Replace(l, pat, rep, 1)`: replace the first occurrence of `pat`
by `rep`, leaving `l` unchanged when `pat` does not occur. -/
def replaceOnceL (l pat rep : List Char) : List Char :=
  match firstIdx pat l with
  | none => l
  | some i => l.take i ++ rep ++ l.drop (i + pat.length)

/-- String wrapper for `replaceOnceL`. -/
def replaceOnce (s pat rep : String) : String := ⟨replaceOnceL s.data pat.data rep.data⟩

theorem firstIdx_some (pat : List Char) (l : List Char) (i : Nat)
    (h : firstIdx pat l = some i) :
    pat.isPrefixOf (l.drop i) = true ∧ ∀ j, j < i → pat.isPrefixOf (l.drop j) = false := by
  induction l generalizing i with
  | nil =>
    simp only [firstIdx] at h
    by_cases hp : pat = []
    · subst hp
      simp at h
      subst h
      exact ⟨by simp [List.isPrefixOf], by omega⟩
    · simp [hp] at h
  | cons c t ih =>
    simp only [firstIdx] at h
    by_cases hp : pat.isPrefixOf (c :: t) = true
    · rw [if_pos hp] at h
      simp at h
      subst h
      exact ⟨hp, by omega⟩
    · rw [if_neg hp] at h
      cases ht : firstIdx pat t with
      | none => rw [ht] at h; simp at h
      | some k =>
        rw [ht] at h
        simp at h
        subst h
        obtain ⟨h1, h2⟩ := ih k ht
        refine ⟨by simpa using h1, ?_⟩
        intro j hj
        cases j with
        | zero => simpa using (Bool.not_eq_true _).mp hp
        | succ j' =>
          have : j' < k := by omega
          simpa using h2 j' this

theorem firstIdx_none (pat : List Char) (l : List Char)
    (h : firstIdx pat l = none) :
    ∀ j, pat.isPrefixOf (l.drop j) = false := by
  induction l with
  | nil =>
    simp only [firstIdx] at h
    by_cases hp : pat = []
    · simp [hp] at h
    · intro j
      simp only [List.drop_nil]
      cases pat with
      | nil => exact absurd rfl hp
      | cons a b => simp [List.isPrefixOf]
  | cons c t ih =>
    simp only [firstIdx] at h
    by_cases hp : pat.isPrefixOf (c :: t) = true
    · simp [hp] at h
    · rw [if_neg hp] at h
      cases ht : firstIdx pat t with
      | some k => rw [ht] at h; simp at h
      | none =>
        intro j
        cases j with
        | zero => simpa using (Bool.not_eq_true _).mp hp
        | succ j' => simpa using ih ht j'

theorem drop_eq_pat_append (pat l : List Char) (i : Nat)
    (h : pat.isPrefixOf (l.drop i) = true) :
    l.drop i = pat ++ l.drop (i + pat.length) := by
  have hpre : pat <+: l.drop i := by
    exact (List.isPrefixOf_iff_prefix).mp h
  obtain ⟨r, hr⟩ := hpre
  have hdd : l.drop (i + pat.length) = r := by
    have h2 : l.drop (i + pat.length) = (l.drop i).drop pat.length := by
      rw [List.drop_drop, Nat.add_comm]
    rw [h2, ← hr]
    simp
  rw [hdd]
  exact hr.symm

/-- Inserting via `strings.Replace(body, "</head>", script ++ "</head>", 1)`
places `script` immediately before the first occurrence of the literal
substring `</head>` (exactly one insertion), and leaves the body unchanged
when no such substring occurs. -/
theorem replaceOnceL_insert_spec (body script : List Char) (i : Nat) :
    (firstIdx ("</head>".data) body = none →
      replaceOnceL body ("</head>".data) (script ++ "</head>".data) = body) ∧
    (firstIdx ("</head>".data) body = some i →
      ("</head>".data).isPrefixOf (body.drop i) = true ∧
      (∀ j, j < i → ("</head>".data).isPrefixOf (body.drop j) = false) ∧
      replaceOnceL body ("</head>".data) (script ++ "</head>".data)
        = body.take i ++ script ++ body.drop i) := by
  constructor
  · intro h
    unfold replaceOnceL
    rw [h]
  · intro h
    obtain ⟨h1, h2⟩ := firstIdx_some _ _ _ h
    refine ⟨h1, h2, ?_⟩
    unfold replaceOnceL
    rw [h]
    have hd := drop_eq_pat_append _ body i h1
    calc body.take i ++ (script ++ "</head>".data) ++ body.drop (i + ("</head>".data).length)
        = body.take i ++ (script ++ ("</head>".data ++ body.drop (i + ("</head>".data).length))) := by
          simp [List.append_assoc]
      _ = body.take i ++ (script ++ body.drop i) := by rw [← hd]
      _ = body.take i ++ script ++ body.drop i := by simp [List.append_assoc]

/-! ## GTM snippet construction (seo.go lines 18-31, 227-228)

The Go templates are raw string literals with one `%s` placeholder filled by
`fmt.Sprintf`; `\x7b`, `\x7d`, `\x27` below are the literal brace and
apostrophe characters of the source templates. -/

/-- `fmt.Sprintf(gtmScriptTemplate, id)`. -/
def gtmScript (id : String) : String :=
  "<!-- Google Tag Manager -->\n<script>(function(w,d,s,l,i)\x7bw[l]=w[l]||[];w[l].push(\x7b\x27gtm.start\x27:\nnew Date().getTime(),event:\x27gtm.js\x27\x7d);var f=d.getElementsByTagName(s)[0],\nj=d.createElement(s),dl=l!=\x27dataLayer\x27?\x27&l=\x27+l:\x27\x27;j.async=true;j.src=\n\x27https://www.googletagmanager.com/gtm.js?id=\x27+i+dl;f.parentNode.insertBefore(j,f);\n\x7d)(window,document,\x27script\x27,\x27dataLayer\x27,\x27"
    ++ id ++ "\x27);</script>\n<!-- End Google Tag Manager -->"

/-- `fmt.Sprintf(gtmNoscriptTemplate, id)`. -/
def gtmNoscript (id : String) : String :=
  "<!-- Google Tag Manager (noscript) -->\n<noscript><iframe src=\"https://www.googletagmanager.com/ns.html?id="
    ++ id ++ "\"\nheight=\"0\" width=\"0\" style=\"display:none;visibility:hidden\"></iframe></noscript>\n<!-- End Google Tag Manager (noscript) -->"

/-- Go regexp `\w` (word character): `[0-9A-Za-z_]`. -/
def isWordChar (c : Char) : Bool :=
  ('0' ≤ c && c ≤ '9') || ('A' ≤ c && c ≤ 'Z') || ('a' ≤ c && c ≤ 'z') || c = '_'

/-- If the regexp `(?i)<body\b[^>]*>` matches at the start of `l`, the length
of the match, else `none`: a case-insensitive `<body`, a word boundary, then
the shortest run of non-`>` characters closed by `>`. -/
def bodyTagLen (l : List Char) : Option Nat :=
  if ("<body".data).isPrefixOf (l.map Char.toLower) then
    let rest := l.drop 5
    if (rest.head?.map isWordChar).getD false then none
    else match firstIdx ['>'] rest with
      | none => none
      | some k => some (5 + k + 1)
  else none

/-- `regexp.FindStringIndex` end position of the leftmost match of
`(?i)<body\b[^>]*>` (seo.go lines 232-235): the insertion point for the
noscript snippet. -/
def findBodyTag : List Char → Option Nat
  | [] => bodyTagLen []
  | c :: t =>
    match bodyTagLen (c :: t) with
    | some n => some n
    | none => (findBodyTag t).map (· + 1)

/-- Insertion of the noscript snippet after the matched `<body ...>` tag
(seo.go lines 234-237); no match leaves the body unchanged. -/
def injectNoscript (s ns : String) : String :=
  match findBodyTag s.data with
  | none => s
  | some p => ⟨s.data.take p ++ ns.data ++ s.data.drop p⟩

/-- The whole rewrite of the (decompressed) body string, seo.go lines 227-239. -/
def rewriteBody (gtmID : String) (body : String) : String :=
  injectNoscript (replaceOnce body "</head>" (gtmScript gtmID ++ "</head>")) (gtmNoscript gtmID)

/-- Claim C4: in the rewrite branch the analytics script block `gtmScript id`
is inserted immediately before the first occurrence of the literal,
case-sensitive substring `</head>`, exactly once; when the body contains no
such substring, the insertion step leaves the body unchanged (silent
omission, not an error). -/
theorem head_insertion (id body : String) (i : Nat) :
    (firstIdx ("</head>".data) body.data = none →
      replaceOnce body "</head>" (gtmScript id ++ "</head>") = body) ∧
    (firstIdx ("</head>".data) body.data = some i →
      ("</head>".data).isPrefixOf (body.data.drop i) = true ∧
      (∀ j, j < i → ("</head>".data).isPrefixOf (body.data.drop j) = false) ∧
      (replaceOnce body "</head>" (gtmScript id ++ "</head>")).data
        = body.data.take i ++ (gtmScript id).data ++ body.data.drop i) := by
  have hrep : (gtmScript id ++ "</head>").data = (gtmScript id).data ++ "</head>".data :=
    strData_append _ _
  constructor
  · intro h
    show (⟨replaceOnceL body.data ("</head>".data) ((gtmScript id ++ "</head>").data)⟩ : String)
      = body
    rw [hrep, (replaceOnceL_insert_spec body.data (gtmScript id).data i).1 h]
  · intro h
    obtain ⟨h1, h2, h3⟩ := (replaceOnceL_insert_spec body.data (gtmScript id).data i).2 h
    refine ⟨h1, h2, ?_⟩
    show (⟨replaceOnceL body.data ("</head>".data) ((gtmScript id ++ "</head>").data)⟩ : String).data
      = _
    rw [hrep, h3]

/-- Witness for C4: in `<head></head>x` the first `</head>` starts at index 6
and the GTM script block is inserted exactly there. -/
theorem head_insertion_witness :
    (replaceOnce "<head></head>x" "</head>" (gtmScript "G" ++ "</head>")).data
      = ("<head></head>x".data).take 6 ++ (gtmScript "G").data ++ ("<head></head>x".data).drop 6 :=
  ((head_insertion "G" "<head></head>x" 6).2 (by decide)).2.2

/-! ## Sitemap builder (seo.go lines 269-341) -/

/-- One `url` element of the generated document. -/
structure SitemapURL where
  loc : String
  lastmod : String
  priority : ℚ
deriving DecidableEq

/-- Models Go `encoding/xml` escaping of character data (`xml.EscapeText`). -/
def xmlEscapeChar (c : Char) : String :=
  if c = '"' then "&#34;" else if c = '\x27' then "&#39;"
  else if c = '&' then "&amp;" else if c = '<' then "&lt;" else if c = '>' then "&gt;"
  else if c = '\t' then "&#x9;" else if c = '\n' then "&#xA;" else if c = '\r' then "&#xD;"
  else String.singleton c

def xmlEscape (s : String) : String :=
  s.data.foldl (fun acc c => acc ++ xmlEscapeChar c) ""

/-- Models `strconv.AppendFloat(b, f, 'g', -1, 64)`, the formatting
`encoding/xml` applies to a float64 field, restricted to the two priority
constants the program uses: the float 1.0 renders as `1` (no fractional
digits in shortest form), 0.8 renders as `0.8`. -/
def priorityText (p : ℚ) : String := if p = 1 then "1" else "0.8"

/-- The snapshot URLs passing the host filter of seo.go line 291:
`strings.HasPrefix(loc, base+"/") || loc == base`. -/
def keptURLs (paths : List String) (r : Request) : List String :=
  paths.filter (fun u => strStartsWith u (baseOf r ++ "/") || u == baseOf r)

/-- Host filtering plus root synthesis, seo.go lines 289-300: `hasRoot` is
true exactly when some snapshot URL equals the bare origin, and the origin is
appended when it is not. -/
def hostFiltered (paths : List String) (r : Request) : List String :=
  if paths.contains (baseOf r) then keptURLs paths r else keptURLs paths r ++ [baseOf r]

/-- Byte-wise lexicographic order on char lists (UTF-8 byte order and code
point order agree), written structurally so the kernel can evaluate it. -/
def listLtB : List Char → List Char → Bool
  | _, [] => false
  | [], _ :: _ => true
  | a :: as, b :: bs => if a < b then true else if b < a then false else listLtB as bs

/-- Go string `<`, used by the sort of seo.go lines 305-307. -/
def strLtB (a b : String) : Bool := listLtB a.data b.data

def strLtRel (a b : String) : Prop := strLtB a b = true

instance : DecidableRel strLtRel := fun a b => instDecidableEqBool (strLtB a b) true

/-- The rational 4/5, written in normal form so that kernel evaluation of
priority comparisons does not involve `Nat.gcd`. -/
def prio08 : ℚ := ⟨4, 5, by norm_num, by norm_num⟩

theorem prio08_eq : prio08 = 4/5 := by
  unfold prio08
  rw [Rat.mk'_eq_divInt]
  norm_num [Rat.divInt_eq_div]

/-- Priority assignment of seo.go lines 328-331 (`base != "" && loc == base`
gets 1.0, every other entry 0.8), wrapped into a `url` entry with the shared
`lastmod` timestamp. -/
def entryOf (base now u : String) : SitemapURL :=
  ⟨u, now, if base != "" && u == base then 1 else prio08⟩

/-- The entry list of the sitemap: snapshot filtering, root synthesis,
lexicographic sort (`sort.Slice` on `loc <`) and priority assignment,
seo.go lines 274-333.  With no request context the full snapshot is used and
`base` stays empty. -/
def buildSitemapEntries (paths : List String) (req : Option Request) (now : String) :
    List SitemapURL :=
  match req with
  | some r => ((hostFiltered paths r).insertionSort strLtRel).map (entryOf (baseOf r) now)
  | none => (paths.insertionSort strLtRel).map (entryOf "" now)

/-- Rendering of one `url` element as `xml.MarshalIndent(urlset, "", "  ")`
lays it out. -/
def renderURLEntry (e : SitemapURL) : String :=
  "  <url>\n    <loc>" ++ xmlEscape e.loc ++ "</loc>\n    <lastmod>"
    ++ xmlEscape e.lastmod ++ "</lastmod>\n    <priority>" ++ priorityText e.priority
    ++ "</priority>\n  </url>"

/-- `xml.Header`. -/
def xmlHeaderStr : String := "<?xml version=\"1.0\" encoding=\"UTF-8\"?>\n"

/-- `buildSitemapXML`: the serialized document (marshalling of the `URLSet`
value cannot fail for this shape, so the nil-error branch of seo.go lines
335-338 is dead and the result is always the document bytes). -/
def buildSitemapXML (paths : List String) (req : Option Request) (now : String) : String :=
  let entries := buildSitemapEntries paths req now
  let inner := match entries with
    | [] => ""
    | _ => "\n" ++ String.intercalate "\n" (entries.map renderURLEntry) ++ "\n"
  xmlHeaderStr ++ "<urlset xmlns=\"http://www.sitemaps.org/schemas/sitemap/0.9\">"
    ++ inner ++ "</urlset>"

/-! ## ServeHTTP (seo.go lines 153-267) -/

/-- Go map insert `sg.paths[fullURL] = struct{}{}` on the key list. -/
def insertPath (u : String) (l : List String) : List String :=
  if l.contains u then l else l ++ [u]

/-- `strings.EqualFold(contentEncoding, "gzip")`, seo.go line 205. -/
def isGzippedDS (ds : Downstream) : Bool := eqFold ds.contentEncoding "gzip"

/-- The condition of seo.go line 226 guarding the rewrite branch:
GTM ID configured, content type `text/html*` (case-insensitive), status 200. -/
def rewriteCond (sg : SG) (ds : Downstream) : Bool :=
  sg.gtmID != "" && strStartsWith (toLowerStr ds.contentType) "text/html"
    && mwFinalStatus ds.ops == 200

/-- What ServeHTTP writes back to the real response writer. -/
structure ClientResponse where
  status : Nat
  body : String
deriving DecidableEq

/-- Outcome of one ServeHTTP invocation: the client response, the registry
contents afterwards, and whether the downstream handler was invoked. -/
structure ServeResult where
  resp : ClientResponse
  paths : List String
  downstreamCalled : Bool

/-- The recording condition of seo.go line 262:
`!ignored && mw.status == http.StatusOK`. -/
def recordCond (sg : SG) (req : Request) (ds : Downstream) : Bool :=
  !(sg.ignores.any (fun m => m req.path)) && mwFinalStatus ds.ops == 200

/-- The registry after the (conditional) insert of seo.go lines 262-266. -/
def recordPaths (sg : SG) (req : Request) (ds : Downstream) : List String :=
  if recordCond sg req ds then insertPath (canonicalURL req) sg.paths else sg.paths

/-- The gzip-decompression step of seo.go lines 207-222: only applied when
the response is gzip-encoded; `none` aborts the handler early. -/
def decompressed (codec : Codec) (ds : Downstream) : Option String :=
  if isGzippedDS ds then codec.decompress (mwBody ds.ops) else some (mwBody ds.ops)

/-- The gzip-recompression step of seo.go lines 241-252 applied to the
rewritten body; only applied when the response was gzip-encoded. -/
def recompressed (codec : Codec) (sg : SG) (ds : Downstream) (bodyBytes : String) :
    Option String :=
  if isGzippedDS ds then codec.compress (rewriteBody sg.gtmID bodyBytes)
  else some (rewriteBody sg.gtmID bodyBytes)

/-- Embedding of `sitemapGenerator.ServeHTTP`.  `ds` is the downstream
handler's observable behaviour (what it would do when invoked), `codec` the
gzip library, `now` the formatted current UTC time used by the sitemap
builder. -/
def serveHTTP (codec : Codec) (now : String) (sg : SG) (req : Request) (ds : Downstream) :
    ServeResult :=
  if req.path = sg.sitemapPath then
    { resp := ⟨200, buildSitemapXML sg.paths (some req) now⟩, paths := sg.paths,
      downstreamCalled := false }
  else if req.path = sg.robotsPath then
    { resp := ⟨200, buildRobotsTxt sg req⟩, paths := sg.paths, downstreamCalled := false }
  else
    match decompressed codec ds with
    | none =>
      { resp := ⟨mwFinalStatus ds.ops, mwBody ds.ops⟩, paths := sg.paths,
        downstreamCalled := true }
    | some bodyBytes =>
      if rewriteCond sg ds then
        match recompressed codec sg ds bodyBytes with
        | none =>
          { resp := ⟨mwFinalStatus ds.ops, mwBody ds.ops⟩, paths := sg.paths,
            downstreamCalled := true }
        | some outBody =>
          { resp := ⟨mwFinalStatus ds.ops, outBody⟩, paths := recordPaths sg req ds,
            downstreamCalled := true }
      else
        { resp := ⟨mwFinalStatus ds.ops, mwBody ds.ops⟩, paths := recordPaths sg req ds,
          downstreamCalled := true }

/-- Whether the gzip handling reaches the recording statement (no early
return at seo.go lines 210-212, 217-219 or 246-248). -/
def noGzipAbort (codec : Codec) (sg : SG) (ds : Downstream) : Bool :=
  match decompressed codec ds with
  | none => false
  | some bodyBytes =>
    if rewriteCond sg ds then (recompressed codec sg ds bodyBytes).isSome else true

/-! ## Concrete instances used by witnesses and counterexamples -/

/-- A middleware state with the default special paths, no ignore patterns,
no GTM ID and an empty registry. -/
def sgBase : SG := ⟨"/sitemap.xml", "/robots.txt", [], "", []⟩

/-- A codec whose decompression and compression both succeed (identity). -/
def codecId : Codec := ⟨fun s => some s, fun s => some s⟩

/-- A codec whose decompression always fails (invalid gzip data). -/
def codecFailDec : Codec := ⟨fun _ => none, fun s => some s⟩

def reqProducts : Request := ⟨"/products", "example.com", "https", ""⟩

def dsPlain : Downstream := ⟨[WriterOp.write "hello"], "text/plain", ""⟩

/-- A 200 HTML response declared gzip-encoded whose bytes are not a valid
gzip stream. -/
def dsGzipHtml : Downstream := ⟨[WriterOp.write "x"], "text/html", "gzip"⟩

/-! ## Claims C9, C2, C1 -/

/-- Claim C9: for every request whose path equals the configured sitemap path
or the configured robots path, the middleware answers the request itself: the
downstream handler is never invoked and the Path Registry is left unchanged. -/
theorem special_paths_no_forward (codec : Codec) (now : String) (sg : SG) (req : Request)
    (ds : Downstream) (h : req.path = sg.sitemapPath ∨ req.path = sg.robotsPath) :
    (serveHTTP codec now sg req ds).downstreamCalled = false ∧
    (serveHTTP codec now sg req ds).paths = sg.paths := by
  unfold serveHTTP
  by_cases h1 : req.path = sg.sitemapPath
  · simp [h1]
  · have h2 : req.path = sg.robotsPath := h.resolve_left h1
    by_cases hx : sg.robotsPath = sg.sitemapPath <;> simp [h1, h2, hx]

/-- Witness for C9 at the default sitemap path. -/
theorem special_paths_no_forward_witness :
    (serveHTTP codecId "t" sgBase ⟨"/sitemap.xml", "example.com", "https", ""⟩ dsPlain).downstreamCalled = false ∧
    (serveHTTP codecId "t" sgBase ⟨"/sitemap.xml", "example.com", "https", ""⟩ dsPlain).paths = sgBase.paths :=
  special_paths_no_forward codecId "t" sgBase ⟨"/sitemap.xml", "example.com", "https", ""⟩ dsPlain
    (Or.inl rfl)

/-- Claim C2: for every request forwarded to the downstream handler, if no
analytics ID is configured, or the response Content-Type does not start with
`text/html` (case-insensitively, as the code compares), or the final status
is not 200, the body written to the client is byte-for-byte the bytes the
downstream handler wrote — including gzip-encoded bodies — after the
declared/default status code. -/
theorem passthrough_exact (codec : Codec) (now : String) (sg : SG) (req : Request)
    (ds : Downstream) (h1 : req.path ≠ sg.sitemapPath) (h2 : req.path ≠ sg.robotsPath)
    (h3 : sg.gtmID = "" ∨ strStartsWith (toLowerStr ds.contentType) "text/html" = false
      ∨ mwFinalStatus ds.ops ≠ 200) :
    (serveHTTP codec now sg req ds).resp = ⟨mwFinalStatus ds.ops, mwBody ds.ops⟩ := by
  have hrc : rewriteCond sg ds = false := by
    unfold rewriteCond
    rcases h3 with h | h | h
    · simp [h]
    · simp [h]
    · have hb : (mwFinalStatus ds.ops == 200) = false := beq_eq_false_iff_ne.mpr h
      simp [hb]
  unfold serveHTTP
  rw [if_neg h1, if_neg h2]
  cases hd : decompressed codec ds with
  | none => rfl
  | some bb => simp [hrc]

/-- Witness for C2: a gzip-encoded non-HTML 200 response passes through
byte-for-byte. -/
theorem passthrough_exact_witness :
    (serveHTTP codecId "t" sgBase reqProducts ⟨[WriterOp.write "zz"], "text/plain", "gzip"⟩).resp
      = ⟨mwFinalStatus [WriterOp.write "zz"], mwBody [WriterOp.write "zz"]⟩ :=
  passthrough_exact codecId "t" sgBase reqProducts ⟨[WriterOp.write "zz"], "text/plain", "gzip"⟩
    (by decide) (by decide) (Or.inl rfl)

/-- Counterexample to claim C1 as stated: a non-ignored request for
`/products` (neither special path) whose downstream response has final status
exactly 200 but is declared gzip-encoded with undecodable bytes; the early
return of seo.go lines 210-212 skips the recording, so the canonical URL is
not recorded. -/
theorem recording_gzip_failure_cex :
    reqProducts.path ≠ sgBase.sitemapPath ∧ reqProducts.path ≠ sgBase.robotsPath ∧
    recordCond sgBase reqProducts dsGzipHtml = true ∧
    canonicalURL reqProducts = "https://example.com/products" ∧
    (serveHTTP codecFailDec "t" sgBase reqProducts dsGzipHtml).paths = [] := by
  decide

/-- Claim C1 as amended: for a request whose path is neither special, the
canonical URL is recorded if and only if the path matches no ignore pattern,
the final observable status is exactly 200, and the gzip handling did not
return early (decompression succeeded when the body was gzip-encoded, and in
the rewrite branch recompression succeeded); in particular non-200 responses
are never recorded, and a non-ignored 200 response is not recorded when
decompression or recompression of its gzip-encoded body fails. -/
theorem recording_characterization (codec : Codec) (now : String) (sg : SG) (req : Request)
    (ds : Downstream) (h1 : req.path ≠ sg.sitemapPath) (h2 : req.path ≠ sg.robotsPath) :
    (serveHTTP codec now sg req ds).paths =
      (if recordCond sg req ds && noGzipAbort codec sg ds
       then insertPath (canonicalURL req) sg.paths else sg.paths) := by
  unfold serveHTTP noGzipAbort
  rw [if_neg h1, if_neg h2]
  cases hd : decompressed codec ds with
  | none => simp
  | some bb =>
    by_cases hrw : rewriteCond sg ds
    · simp only [hrw, if_true]
      cases hr : recompressed codec sg ds bb with
      | none => simp
      | some ob => simp [recordPaths]
    · simp [hrw, recordPaths]

/-- Witness for the amended C1: a plain 200 response on `/products` is
recorded. -/
theorem recording_characterization_witness :
    (serveHTTP codecId "t" sgBase reqProducts dsPlain).paths =
      (if recordCond sgBase reqProducts dsPlain && noGzipAbort codecId sgBase dsPlain
       then insertPath (canonicalURL reqProducts) sgBase.paths else sgBase.paths) :=
  recording_characterization codecId "t" sgBase reqProducts dsPlain (by decide) (by decide)

/-! ## Claims C3 and C5 (sitemap content) -/

theorem entries_locs (paths : List String) (req : Request) (now : String) :
    (buildSitemapEntries paths (some req) now).map SitemapURL.loc
      = (hostFiltered paths req).insertionSort strLtRel := by
  unfold buildSitemapEntries
  rw [List.map_map]
  have h : SitemapURL.loc ∘ entryOf (baseOf req) now = id := rfl
  rw [h, List.map_id]

/-- Claim C3: with a request context, the emitted URL set is exactly the
snapshot URLs equal to `base = scheme://host` or starting with `base ++ "/"`,
plus `base` itself synthesized exactly when no snapshot URL equals it; and
`base` is never duplicated when the snapshot has no duplicates. -/
theorem sitemap_host_filter (paths : List String) (req : Request) (now u : String)
    (hnd : paths.Nodup) :
    (u ∈ (buildSitemapEntries paths (some req) now).map SitemapURL.loc ↔
      (u ∈ paths ∧ (strStartsWith u (baseOf req ++ "/") = true ∨ u = baseOf req)) ∨
      (u = baseOf req ∧ baseOf req ∉ paths)) ∧
    ((buildSitemapEntries paths (some req) now).map SitemapURL.loc).count (baseOf req) ≤ 1 := by
  rw [entries_locs]
  have hperm : List.Perm ((hostFiltered paths req).insertionSort strLtRel)
      (hostFiltered paths req) := List.perm_insertionSort _ _
  constructor
  · rw [hperm.mem_iff]
    unfold hostFiltered keptURLs
    by_cases hc : paths.contains (baseOf req) = true
    · have hmem : baseOf req ∈ paths := by simpa using hc
      rw [if_pos hc]
      simp only [List.mem_filter, Bool.or_eq_true, beq_iff_eq]
      constructor
      · rintro ⟨hp, hcond⟩
        exact Or.inl ⟨hp, hcond⟩
      · rintro (⟨hp, hcond⟩ | ⟨rfl, habs⟩)
        · exact ⟨hp, hcond⟩
        · exact absurd hmem habs
    · have hmem : baseOf req ∉ paths := by simpa using hc
      rw [if_neg hc]
      simp only [List.mem_append, List.mem_filter, List.mem_singleton, Bool.or_eq_true,
        beq_iff_eq]
      constructor
      · rintro (⟨hp, hcond⟩ | rfl)
        · exact Or.inl ⟨hp, hcond⟩
        · exact Or.inr ⟨rfl, hmem⟩
      · rintro (⟨hp, hcond⟩ | ⟨rfl, _⟩)
        · exact Or.inl ⟨hp, hcond⟩
        · exact Or.inr rfl
  · rw [hperm.count_eq]
    unfold hostFiltered keptURLs
    by_cases hc : paths.contains (baseOf req) = true
    · rw [if_pos hc]
      calc (paths.filter _).count (baseOf req) ≤ paths.count (baseOf req) :=
            (List.filter_sublist _).count_le _
        _ ≤ 1 := List.nodup_iff_count_le_one.mp hnd _
    · have hmem : baseOf req ∉ paths := by simpa using hc
      rw [if_neg hc, List.count_append]
      have h0 : (paths.filter
          (fun u => strStartsWith u (baseOf req ++ "/") || u == baseOf req)).count (baseOf req)
          = 0 := by
        rw [List.count_eq_zero]
        intro hx
        exact hmem (List.mem_of_mem_filter hx)
      rw [h0]
      simp

def pathsAB : List String := ["https://a.com/x", "https://b.com/y"]

def reqHostA : Request := ⟨"/sitemap.xml", "a.com", "https", ""⟩

/-- Witness for C3: with registry `{https://a.com/x, https://b.com/y}` and a
request for host `a.com`, the other tenant's URL `https://b.com/y` is
characterized (and in fact excluded). -/
theorem sitemap_host_filter_witness :
    ("https://b.com/y" ∈ (buildSitemapEntries pathsAB (some reqHostA) "t").map SitemapURL.loc ↔
      ("https://b.com/y" ∈ pathsAB ∧
        (strStartsWith "https://b.com/y" (baseOf reqHostA ++ "/") = true ∨
          "https://b.com/y" = baseOf reqHostA)) ∨
      ("https://b.com/y" = baseOf reqHostA ∧ baseOf reqHostA ∉ pathsAB)) ∧
    ((buildSitemapEntries pathsAB (some reqHostA) "t").map SitemapURL.loc).count
      (baseOf reqHostA) ≤ 1 :=
  sitemap_host_filter pathsAB reqHostA "t" "https://b.com/y" (by decide)

theorem baseOf_ne_empty (req : Request) : baseOf req ≠ "" := by
  intro h
  have hd := congrArg String.data h
  unfold baseOf at hd
  rw [strData_append, strData_append] at hd
  have h2 := (List.append_eq_nil.mp (List.append_eq_nil.mp hd).1).2
  exact absurd h2 (by decide)

def pathsH : List String := ["https://h/x"]

def reqH : Request := ⟨"/sitemap.xml", "h", "https", ""⟩

/-- Counterexample to claim C5 as stated: Go `encoding/xml` serializes the
float64 priority 1.0 in shortest form, so the root entry's priority element
text is `1`, not `1.0`; the document never contains the string
`<priority>1.0</priority>`. -/
theorem priority_text_cex :
    (buildSitemapEntries pathsH (some reqH) "t").map (fun e => (e.loc, priorityText e.priority))
      = [("https://h", "1"), ("https://h/x", "0.8")] ∧
    firstIdx ("<priority>1.0</priority>".data) (buildSitemapXML pathsH (some reqH) "t").data
      = none ∧
    (firstIdx ("<priority>1</priority>".data) (buildSitemapXML pathsH (some reqH) "t").data).isSome
      = true := by
  set_option maxRecDepth 4000 in decide

/-- Claim C5 as amended: the entry whose loc equals `base` carries priority
1.0 and every other entry 0.8, and the rendered priority element text is the
Go shortest-form float rendering: `1` for the base entry (not `1.0`) and
`0.8` for every other entry. -/
theorem priority_values (paths : List String) (req : Request) (now : String) (e : SitemapURL)
    (he : e ∈ buildSitemapEntries paths (some req) now) :
    (e.loc = baseOf req → e.priority = 1 ∧ priorityText e.priority = "1") ∧
    (e.loc ≠ baseOf req → e.priority = 4/5 ∧ priorityText e.priority = "0.8") := by
  unfold buildSitemapEntries at he
  rw [List.mem_map] at he
  obtain ⟨u, _, rfl⟩ := he
  have hne : (baseOf req != "") = true := bne_iff_ne.mpr (baseOf_ne_empty req)
  constructor
  · intro hloc
    have hu : u = baseOf req := hloc
    have hbeq : (u == baseOf req) = true := beq_iff_eq.mpr hu
    have h1 : (entryOf (baseOf req) now u).priority = 1 := by
      simp [entryOf, hne, hbeq]
    rw [h1]
    exact ⟨rfl, by simp [priorityText]⟩
  · intro hloc
    have hu : u ≠ baseOf req := hloc
    have hbeq : (u == baseOf req) = false := beq_eq_false_iff_ne.mpr hu
    have h1 : (entryOf (baseOf req) now u).priority = prio08 := by
      simp [entryOf, hbeq]
    rw [h1, prio08_eq]
    have h45 : (4/5 : ℚ) ≠ 1 := by norm_num
    exact ⟨rfl, by simp [priorityText, h45]⟩

/-- Witness for the amended C5: the base entry of the concrete build carries
priority 1 rendered as `1`. -/
theorem priority_values_witness :
    ((⟨"https://h", "t", 1⟩ : SitemapURL).loc = baseOf reqH →
      (⟨"https://h", "t", 1⟩ : SitemapURL).priority = 1 ∧
      priorityText (⟨"https://h", "t", 1⟩ : SitemapURL).priority = "1") ∧
    ((⟨"https://h", "t", 1⟩ : SitemapURL).loc ≠ baseOf reqH →
      (⟨"https://h", "t", 1⟩ : SitemapURL).priority = 4/5 ∧
      priorityText (⟨"https://h", "t", 1⟩ : SitemapURL).priority = "0.8") :=
  priority_values pathsH reqH "t" ⟨"https://h", "t", 1⟩ (by decide)

/-! ## Claim C6: shape of reachable registry states -/

/-- One middleware invocation as a transition on the `sitemapGenerator`
state: only the registry field mutates. -/
def stepSG (codec : Codec) (now : String) (sg : SG) (rd : Request × Downstream) : SG :=
  { sg with paths := (serveHTTP codec now sg rd.1 rd.2).paths }

/-- The middleware state after a sequence of requests. -/
def runSG (codec : Codec) (now : String) (sg0 : SG) (rds : List (Request × Downstream)) : SG :=
  rds.foldl (stepSG codec now) sg0

theorem serveHTTP_paths_cases (codec : Codec) (now : String) (sg : SG) (req : Request)
    (ds : Downstream) :
    (serveHTTP codec now sg req ds).paths = sg.paths ∨
    (serveHTTP codec now sg req ds).paths = insertPath (canonicalURL req) sg.paths := by
  unfold serveHTTP
  by_cases h1 : req.path = sg.sitemapPath
  · simp [h1]
  by_cases h2 : req.path = sg.robotsPath
  · by_cases hx : sg.robotsPath = sg.sitemapPath <;> simp [h1, h2, hx]
  rw [if_neg h1, if_neg h2]
  cases hd : decompressed codec ds with
  | none => simp
  | some bb =>
    by_cases hrw : rewriteCond sg ds = true
    · simp only [hrw, if_true]
      cases recompressed codec sg ds bb with
      | none => simp
      | some ob =>
        unfold recordPaths
        by_cases hrc : recordCond sg req ds = true <;> simp [hrc]
    · simp only [hrw, if_false]
      unfold recordPaths
      by_cases hrc : recordCond sg req ds = true <;> simp [hrw, hrc]

theorem mem_insertPath (u v : String) (l : List String) (h : u ∈ insertPath v l) :
    u ∈ l ∨ u = v := by
  unfold insertPath at h
  by_cases hc : l.contains v = true
  · rw [if_pos hc] at h
    exact Or.inl h
  · rw [if_neg hc] at h
    rcases List.mem_append.mp h with h | h
    · exact Or.inl h
    · exact Or.inr (List.mem_singleton.mp h)

theorem runSG_mem (codec : Codec) (now : String) (rds : List (Request × Downstream)) :
    ∀ (sg0 : SG) (u : String), u ∈ (runSG codec now sg0 rds).paths →
      u ∈ sg0.paths ∨ ∃ rd ∈ rds, u = canonicalURL rd.1 := by
  induction rds with
  | nil =>
    intro sg0 u h
    exact Or.inl h
  | cons rd t ih =>
    intro sg0 u h
    rcases ih (stepSG codec now sg0 rd) u h with h2 | ⟨rd2, hm, he⟩
    · simp only [stepSG] at h2
      rcases serveHTTP_paths_cases codec now sg0 rd.1 rd.2 with h3 | h3
      · rw [h3] at h2
        exact Or.inl h2
      · rw [h3] at h2
        rcases mem_insertPath u (canonicalURL rd.1) sg0.paths h2 with h4 | h4
        · exact Or.inl h4
        · exact Or.inr ⟨rd, List.mem_cons_self _ _, h4⟩
    · exact Or.inr ⟨rd2, List.mem_cons_of_mem _ hm, he⟩

/-- Claim C6 as amended: every URL stored in a registry state reachable from
an empty registry equals `scheme ++ "://" ++ host ++ path` with ONE trailing
slash stripped from the request path (`strings.TrimSuffix(path, "/")`);
because only one slash is removed, a stored URL may still end in `/` when the
request path ended in two or more slashes. -/
theorem stored_url_shape (codec : Codec) (now : String) (sg0 : SG)
    (rds : List (Request × Downstream)) (u : String)
    (h0 : sg0.paths = []) (hu : u ∈ (runSG codec now sg0 rds).paths) :
    ∃ rd ∈ rds, u = effectiveScheme rd.1 ++ "://" ++ rd.1.host ++ trimSuffix rd.1.path "/" := by
  rcases runSG_mem codec now rds sg0 u hu with h | ⟨rd, hm, he⟩
  · rw [h0] at h
    cases h
  · exact ⟨rd, hm, he⟩

def reqSlashes : Request := ⟨"/a//", "h", "https", ""⟩

/-- Counterexample to claim C6 as stated: a 200 response for path `/a//`
stores `https://h/a/`, which ends in `/` — `strings.TrimSuffix` strips only
one trailing slash. -/
theorem stored_url_trailing_slash_cex :
    (runSG codecId "t" sgBase [(reqSlashes, dsPlain)]).paths = ["https://h/a/"] ∧
    ("https://h/a/" : String).data.getLast? = some '/' := by
  decide

/-- Witness for the amended C6: the sole stored URL of a one-request run has
the canonical shape. -/
theorem stored_url_shape_witness :
    ∃ rd ∈ [(reqProducts, dsPlain)],
      "https://example.com/products"
        = effectiveScheme rd.1 ++ "://" ++ rd.1.host ++ trimSuffix rd.1.path "/" :=
  stored_url_shape codecId "t" sgBase [(reqProducts, dsPlain)] "https://example.com/products"
    rfl (by decide)

/-! ## Claim C8: middleware construction (`New`, seo.go lines 98-151) -/

/-- The built-in default ignore patterns, seo.go lines 115-134. -/
def defaultPatterns : List String :=
  ["(?i)\\.env", "(?i)\\.bak", "(?i)\\.old", "(?i)\\.example", "(?i)\\.exmaple",
   "(?i)\\.sample", "(?i)\\.tmpl", "(?i)\\.tpl", "(?i)\\.dist", "(?i)\\.~",
   "(?i)\\.php", "(?i)\\.aspx", "(?i)config", "(?i)wp-", "(?i)sitemap",
   "(?i)undefined", "^/_next/*",
   "\\.(jpg|jpeg|png|gif|webp|svg|bmp|tif|tiff|ico|txt|php|exe|css|js|json|pdf|doc|docx|xls|xlsx|ppt|pptx|mp3|mp4|avi|mov|zip|rar|tar|gz|env|html|xml)$"]

/-- The plugin configuration (seo.go lines 33-38). -/
structure Config where
  SitemapPath : String
  RobotsPath : String
  Ignore : List String
  GTMID : String

/-- The user-pattern compilation loop of seo.go lines 106-113: the first
pattern `regexp.Compile` rejects aborts construction. -/
def compileList (compile : String → Option Matcher) : List String → Option (List Matcher)
  | [] => some []
  | p :: ps =>
    match compile p with
    | none => none
    | some m => (compileList compile ps).map (m :: ·)

/-- `regexp.MustCompile` for the built-in defaults (all valid, so the panic
branch is unreachable; modelled total via a default matcher). -/
def mustCompile (compile : String → Option Matcher) (p : String) : Matcher :=
  (compile p).getD (fun _ => false)

/-- Embedding of `New` (seo.go lines 98-151), parameterized by the regexp
engine `compile`; `none` models the error return. -/
def New (compile : String → Option Matcher) (cfg : Config) : Option SG :=
  match compileList compile cfg.Ignore with
  | none => none
  | some userMs =>
    some { sitemapPath := if cfg.SitemapPath = "" then "/sitemap.xml" else cfg.SitemapPath,
           robotsPath := if cfg.RobotsPath = "" then "/robots.txt" else cfg.RobotsPath,
           ignores := userMs ++ defaultPatterns.map (mustCompile compile),
           gtmID := cfg.GTMID,
           paths := [] }

theorem compileList_none (compile : String → Option Matcher) (ps : List String) (p : String)
    (hp : p ∈ ps) (h : compile p = none) : compileList compile ps = none := by
  induction ps with
  | nil => cases hp
  | cons q t ih =>
    unfold compileList
    rcases List.mem_cons.mp hp with rfl | hm
    · simp [h]
    · cases hq : compile q with
      | none => rfl
      | some m => simp [ih hm]

theorem compileList_all_some (compile : String → Option Matcher) (ps : List String)
    (h : ∀ p ∈ ps, (compile p).isSome = true) :
    compileList compile ps = some (ps.filterMap compile) := by
  induction ps with
  | nil => rfl
  | cons q t ih =>
    have hq := h q (List.mem_cons_self _ _)
    cases hc : compile q with
    | none => rw [hc] at hq; simp at hq
    | some m =>
      unfold compileList
      rw [hc, ih (fun p hp => h p (List.mem_cons_of_mem _ hp))]
      simp [List.filterMap_cons, hc]

/-- Claim C8: if any user-supplied ignore pattern fails to compile,
construction fails and no handler is produced; when all user patterns
compile, construction succeeds and the compiled set is the user patterns
followed by the built-in defaults. -/
theorem new_pattern_handling (compile : String → Option Matcher) (cfg : Config) :
    ((∃ p ∈ cfg.Ignore, compile p = none) → New compile cfg = none) ∧
    ((∀ p ∈ cfg.Ignore, (compile p).isSome = true) →
      ∃ sg, New compile cfg = some sg ∧
        sg.ignores = cfg.Ignore.filterMap compile ++ defaultPatterns.map (mustCompile compile)) := by
  constructor
  · rintro ⟨p, hp, h⟩
    unfold New
    rw [compileList_none compile cfg.Ignore p hp h]
  · intro h
    unfold New
    rw [compileList_all_some compile cfg.Ignore h]
    exact ⟨_, rfl, rfl⟩

/-- A concrete regexp engine for the witness: rejects the single pattern
`(` and compiles everything else to a substring matcher. -/
def cmpEx : String → Option Matcher :=
  fun s => if s = "(" then none else some (fun p => strStartsWith p s)

/-- Witness for C8: one invalid user pattern aborts construction; with a
valid user pattern the compiled set is user patterns then defaults. -/
theorem new_pattern_handling_witness :
    New cmpEx ⟨"", "", ["("], ""⟩ = none ∧
    ∃ sg, New cmpEx ⟨"", "", ["/admin"], ""⟩ = some sg ∧
      sg.ignores = (["/admin"] : List String).filterMap cmpEx
        ++ defaultPatterns.map (mustCompile cmpEx) :=
  ⟨(new_pattern_handling cmpEx ⟨"", "", ["("], ""⟩).1 ⟨"(", List.mem_singleton.mpr rfl, rfl⟩,
   (new_pattern_handling cmpEx ⟨"", "", ["/admin"], ""⟩).2
     (by intro p hp; rcases List.mem_singleton.mp hp with rfl; rfl)⟩

end Seo
